import Mathlib

/-!
Verification of the camera-pose visualizer (`camera_pose_visualizer.py`).

The script's single operation, `Runner.vis`, loops over camera-to-world
poses, randomly or selectively skips cameras, draws per-camera axis
triads (and, when `show_image` is set, an image frustum whose four
corners expand the running world bounds), and finally sets cubic axis
limits from scaled global bounds.

We embed the loop shallowly: real-valued tensors become `ℚ`-valued
3-vectors, the random draws of `np.random.rand()` become an explicit
stream of samples, image loading becomes an oracle `ℕ → Option Unit`
(a missing file makes the run fail), and the external ray-generation
collaborator becomes an oracle `ℕ → List Vec3` giving each camera's
four frustum corners.  Failures propagate through `Except`, mirroring
the absence of any error handling in the source.
-/

/-- A 3-vector of rational coordinates, standing in for a row of a
`torch` tensor of shape `(3,)`. -/
structure Vec3 where
  x : ℚ
  y : ℚ
  z : ℚ
  deriving Repr, DecidableEq

namespace Vec3

/-- Componentwise minimum, as in `torch.min(a, b)` on 3-vectors. -/
def minV (a b : Vec3) : Vec3 :=
  ⟨min a.x b.x, min a.y b.y, min a.z b.z⟩

/-- Componentwise maximum, as in `torch.max(a, b)` on 3-vectors. -/
def maxV (a b : Vec3) : Vec3 :=
  ⟨max a.x b.x, max a.y b.y, max a.z b.z⟩

/-- Vector addition. -/
def addV (a b : Vec3) : Vec3 :=
  ⟨a.x + b.x, a.y + b.y, a.z + b.z⟩

/-- Scalar multiplication. -/
def smul (c : ℚ) (v : Vec3) : Vec3 :=
  ⟨c * v.x, c * v.y, c * v.z⟩

/-- The single scalar minimum over the three components, as in
`tensor.min()` with no dimension argument. -/
def compMin (v : Vec3) : ℚ :=
  min v.x (min v.y v.z)

/-- The single scalar maximum over the three components, as in
`tensor.max()` with no dimension argument. -/
def compMax (v : Vec3) : ℚ :=
  max v.x (max v.y v.z)

/-- Componentwise order on 3-vectors. -/
def le (a b : Vec3) : Prop :=
  a.x ≤ b.x ∧ a.y ≤ b.y ∧ a.z ≤ b.z

instance (a b : Vec3) : Decidable (le a b) := by
  unfold le
  infer_instance

end Vec3

/-- The 3×3 rotation block of a camera-to-world transform, stored by
columns: `col0`, `col1`, `col2` are `camera_orientation[:, 0|1|2]`. -/
structure Mat3 where
  col0 : Vec3
  col1 : Vec3
  col2 : Vec3
  deriving Repr, DecidableEq

/-- One camera-to-world transform: `rotation` is `camera_pose[:3, :3]`
and `translation` is `camera_pose[:3, 3]`. -/
structure CameraPose where
  rotation : Mat3
  translation : Vec3
  deriving Repr, DecidableEq

/-- The visualization options of `VisConfig` that `vis` reads
(the datamanager sub-config is the external collaborator, modelled by
the pose list and oracles passed to `vis` directly). -/
structure VisConfig where
  image_downsample_factor : ℕ
  skip_probability : ℚ
  image_plane : ℚ
  selected_frames : Option (List ℕ)
  show_image : Bool
  deriving Repr, DecidableEq

/-- The skip test of line 58 of the source, with Python's operator
precedence (`and` binds tighter than `or`):
`sample < skip_probability or (selected_frames is not None and i not in selected_frames) and show_image`. -/
def skipCond (cfg : VisConfig) (i : ℕ) (sample : ℚ) : Bool :=
  decide (sample < cfg.skip_probability) ||
    ((match cfg.selected_frames with
      | some sel => decide (i ∉ sel)
      | none => false) && cfg.show_image)

/-- What the loop body draws for one non-skipped camera: the three
axis segments (recorded by their endpoints), the text label (the
index) and, when `show_image` is set, the frustum corner segments. -/
structure DrawnCamera where
  index : ℕ
  camera_position : Vec3
  x_axis : Vec3
  y_axis : Vec3
  z_axis : Vec3
  frustum_corners : Option (List Vec3)
  deriving Repr, DecidableEq

/-- Lines 62-70 of the source: extract position and orientation and
compute the three axis endpoints with `axis_length = 0.8 * image_plane`. -/
def drawCamera (cfg : VisConfig) (i : ℕ) (camera_pose : CameraPose)
    (corners : Option (List Vec3)) : DrawnCamera :=
  let camera_position := camera_pose.translation
  let axis_length := (4 / 5 : ℚ) * cfg.image_plane
  { index := i
    camera_position := camera_position
    x_axis := Vec3.addV camera_position (Vec3.smul axis_length camera_pose.rotation.col0)
    y_axis := Vec3.addV camera_position (Vec3.smul axis_length camera_pose.rotation.col1)
    z_axis := Vec3.addV camera_position (Vec3.smul axis_length camera_pose.rotation.col2)
    frustum_corners := corners }

/-- The mutable state of the loop of `vis`: the `skipped` list, the
figure contents accumulated so far, and the running bound vectors. -/
structure LoopState where
  skipped : List ℕ
  drawn : List DrawnCamera
  min_pos : Vec3
  max_pos : Vec3
  deriving Repr, DecidableEq

/-- One iteration of the loop (lines 56-140).  `images i = none`
models a missing image file, which makes `Image.open` fail; the
failure is uncaught, so the step returns `Except.error`.  The corner
loop of lines 122-130 expands `max_pos` and `min_pos` by each corner
in order. -/
def visStep (cfg : VisConfig) (images : ℕ → Option Unit)
    (corners : ℕ → List Vec3) (st : LoopState) (i : ℕ)
    (camera_pose : CameraPose) (sample : ℚ) : Except String LoopState :=
  if skipCond cfg i sample then
    Except.ok { st with skipped := st.skipped ++ [i] }
  else
    if cfg.show_image then
      match images i with
      | none => Except.error "missing image file"
      | some _ =>
        let cs := corners i
        Except.ok
          { skipped := st.skipped
            drawn := st.drawn ++ [drawCamera cfg i camera_pose (some cs)]
            min_pos := cs.foldl Vec3.minV st.min_pos
            max_pos := cs.foldl Vec3.maxV st.max_pos }
    else
      Except.ok { st with drawn := st.drawn ++ [drawCamera cfg i camera_pose none] }

/-- The whole loop, over the enumerated pose list, threading the state
and propagating a failure of any iteration. -/
def runLoop (cfg : VisConfig) (images : ℕ → Option Unit)
    (corners : ℕ → List Vec3) (samples : ℕ → ℚ) :
    List (ℕ × CameraPose) → LoopState → Except String LoopState
  | [], st => Except.ok st
  | (i, p) :: rest, st =>
    match visStep cfg images corners st i p (samples i) with
    | Except.error e => Except.error e
    | Except.ok st2 => runLoop cfg images corners samples rest st2

/-- Line 47 of the source: `torch.min(camera_poses[:, :3, 3], dim=0)`,
the componentwise minimum of the translations of all poses (which
requires at least one pose). -/
def seedMin (p : CameraPose) (ps : List CameraPose) : Vec3 :=
  ps.foldl (fun a q => Vec3.minV a q.translation) p.translation

/-- Line 48 of the source: the componentwise maximum of the
translations of all poses. -/
def seedMax (p : CameraPose) (ps : List CameraPose) : Vec3 :=
  ps.foldl (fun a q => Vec3.maxV a q.translation) p.translation

/-- Everything `vis` leaves behind: the skipped list, the drawn
cameras, the final (pre-scaling) bound vectors, the three axis limit
intervals, the endpoint of the three world-axis reference lines, and
the skipped count of the log line. -/
structure VisOutput where
  skipped : List ℕ
  drawn : List DrawnCamera
  min_pos : Vec3
  max_pos : Vec3
  xlim : ℚ × ℚ
  ylim : ℚ × ℚ
  zlim : ℚ × ℚ
  world_axis_end : ℚ
  logged_skipped_count : ℕ
  deriving Repr, DecidableEq

/-- `Runner.vis` (lines 43-163).  On an empty camera set the reduction
`torch.min(..., dim=0)` of line 47 fails, so the run aborts before any
figure state exists.  After the loop, lines 142-143 collapse the bound
vectors to scalars (`max_pos.max() * 1.1`, `min_pos.min() * 0.9`),
lines 146-148 draw the world axes out to the scaled maximum, and lines
156-158 set the same interval as the limit of all three axes. -/
def vis (cfg : VisConfig) (images : ℕ → Option Unit)
    (corners : ℕ → List Vec3) (poses : List CameraPose)
    (samples : ℕ → ℚ) : Except String VisOutput :=
  match poses with
  | [] => Except.error "min over empty dimension"
  | p :: ps =>
    let min_pos0 := seedMin p ps
    let max_pos0 := seedMax p ps
    match runLoop cfg images corners samples (p :: ps).enum
        ⟨[], [], min_pos0, max_pos0⟩ with
    | Except.error e => Except.error e
    | Except.ok st =>
      let max_scalar := st.max_pos.compMax * (11 / 10)
      let min_scalar := st.min_pos.compMin * (9 / 10)
      Except.ok
        { skipped := st.skipped
          drawn := st.drawn
          min_pos := st.min_pos
          max_pos := st.max_pos
          xlim := (min_scalar, max_scalar)
          ylim := (min_scalar, max_scalar)
          zlim := (min_scalar, max_scalar)
          world_axis_end := max_scalar
          logged_skipped_count := st.skipped.length }

/-- The strided slice `l[::k]` of numpy/torch indexing (lines 107-110):
every `k`-th element starting at index 0. -/
def strideSlice (k : ℕ) : List α → List α
  | [] => []
  | a :: rest => a :: strideSlice k (rest.drop (k - 1))
termination_by l => l.length
decreasing_by
  simp only [List.length_cons, List.length_drop]
  omega

/-- The 2-d strided slice `g[::k, ::k]`: stride the rows, then stride
each remaining row. -/
def strideGrid (k : ℕ) (g : List (List α)) : List (List α) :=
  (strideSlice k g).map (strideSlice k)

/-- The bound-expansion of lines 129-130 accumulated over a list of
camera indices: fold the binary bound update over each camera's four
frustum corners, in loop order. -/
def boundFold (f : Vec3 → Vec3 → Vec3) (corners : ℕ → List Vec3)
    (idxs : List ℕ) (v : Vec3) : Vec3 :=
  idxs.foldl (fun a i => (corners i).foldl f a) v

/-- The index-to-drawn-camera map realized by one non-skipped loop
iteration: the frustum corners are recorded exactly when `show_image`
is set. -/
def renderEntry (cfg : VisConfig) (corners : ℕ → List Vec3)
    (e : ℕ × CameraPose) : DrawnCamera :=
  drawCamera cfg e.1 e.2 (if cfg.show_image then some (corners e.1) else none)

/-- The identity rotation. -/
def idMat : Mat3 :=
  ⟨⟨1, 0, 0⟩, ⟨0, 1, 0⟩, ⟨0, 0, 1⟩⟩

/-! ### Order and fold lemmas for the bound vectors -/

theorem Vec3.le_refl (a : Vec3) : Vec3.le a a :=
  ⟨le_rfl, le_rfl, le_rfl⟩

theorem Vec3.le_trans {a b c : Vec3} (hab : Vec3.le a b) (hbc : Vec3.le b c) :
    Vec3.le a c :=
  ⟨hab.1.trans hbc.1, hab.2.1.trans hbc.2.1, hab.2.2.trans hbc.2.2⟩

theorem Vec3.minV_le_left (a b : Vec3) : Vec3.le (Vec3.minV a b) a :=
  ⟨min_le_left _ _, min_le_left _ _, min_le_left _ _⟩

theorem Vec3.minV_le_right (a b : Vec3) : Vec3.le (Vec3.minV a b) b :=
  ⟨min_le_right _ _, min_le_right _ _, min_le_right _ _⟩

theorem Vec3.le_maxV_left (a b : Vec3) : Vec3.le a (Vec3.maxV a b) :=
  ⟨le_max_left _ _, le_max_left _ _, le_max_left _ _⟩

theorem Vec3.le_maxV_right (a b : Vec3) : Vec3.le b (Vec3.maxV a b) :=
  ⟨le_max_right _ _, le_max_right _ _, le_max_right _ _⟩

theorem foldl_minV_le (cs : List Vec3) (v : Vec3) :
    Vec3.le (cs.foldl Vec3.minV v) v := by
  induction cs generalizing v with
  | nil => exact Vec3.le_refl v
  | cons c cs ih =>
    exact Vec3.le_trans (ih (Vec3.minV v c)) (Vec3.minV_le_left v c)

theorem le_foldl_maxV (cs : List Vec3) (v : Vec3) :
    Vec3.le v (cs.foldl Vec3.maxV v) := by
  induction cs generalizing v with
  | nil => exact Vec3.le_refl v
  | cons c cs ih =>
    exact Vec3.le_trans (Vec3.le_maxV_left v c) (ih (Vec3.maxV v c))

theorem foldl_minV_le_mem (cs : List Vec3) (v : Vec3) :
    ∀ c ∈ cs, Vec3.le (cs.foldl Vec3.minV v) c := by
  induction cs generalizing v with
  | nil => intro c hc; cases hc
  | cons a cs ih =>
    intro c hc
    rcases List.mem_cons.mp hc with rfl | hc
    · exact Vec3.le_trans (foldl_minV_le cs (Vec3.minV v c)) (Vec3.minV_le_right v c)
    · exact ih (Vec3.minV v a) c hc

theorem le_foldl_maxV_mem (cs : List Vec3) (v : Vec3) :
    ∀ c ∈ cs, Vec3.le c (cs.foldl Vec3.maxV v) := by
  induction cs generalizing v with
  | nil => intro c hc; cases hc
  | cons a cs ih =>
    intro c hc
    rcases List.mem_cons.mp hc with rfl | hc
    · exact Vec3.le_trans (Vec3.le_maxV_right v c) (le_foldl_maxV cs (Vec3.maxV v c))
    · exact ih (Vec3.maxV v a) c hc

/-! ### Characterizing the skip condition and the loop -/

theorem skipCond_iff (cfg : VisConfig) (i : ℕ) (s : ℚ) :
    skipCond cfg i s = true ↔
      s < cfg.skip_probability ∨
        ∃ sel, cfg.selected_frames = some sel ∧ i ∉ sel ∧ cfg.show_image = true := by
  unfold skipCond
  cases hsel : cfg.selected_frames with
  | none => simp
  | some sel =>
    by_cases hmem : i ∈ sel <;> by_cases hsi : cfg.show_image <;>
      simp [hmem, hsi]

theorem runLoop_spec (cfg : VisConfig) (images : ℕ → Option Unit)
    (corners : ℕ → List Vec3) (samples : ℕ → ℚ)
    (l : List (ℕ × CameraPose)) (st : LoopState)
    (h : ∀ e ∈ l, skipCond cfg e.1 (samples e.1) = false →
      cfg.show_image = true → images e.1 ≠ none) :
    runLoop cfg images corners samples l st =
      Except.ok
        { skipped := st.skipped ++
            (l.filter (fun e => skipCond cfg e.1 (samples e.1))).map Prod.fst
          drawn := st.drawn ++
            (l.filter (fun e => ! skipCond cfg e.1 (samples e.1))).map
              (renderEntry cfg corners)
          min_pos :=
            if cfg.show_image then
              boundFold Vec3.minV corners
                ((l.filter (fun e => ! skipCond cfg e.1 (samples e.1))).map Prod.fst)
                st.min_pos
            else st.min_pos
          max_pos :=
            if cfg.show_image then
              boundFold Vec3.maxV corners
                ((l.filter (fun e => ! skipCond cfg e.1 (samples e.1))).map Prod.fst)
                st.max_pos
            else st.max_pos } := by
  induction l generalizing st with
  | nil => simp [runLoop, boundFold]
  | cons e rest ih =>
    obtain ⟨i, p⟩ := e
    cases hskip : skipCond cfg i (samples i) with
    | true =>
      have hstep : visStep cfg images corners st i p (samples i) =
          Except.ok { st with skipped := st.skipped ++ [i] } := by
        simp [visStep, hskip]
      simp only [runLoop, hstep]
      rw [ih _ (fun e he => h e (List.mem_cons_of_mem _ he))]
      simp [hskip, List.filter_cons]
    | false =>
      cases hsi : cfg.show_image with
      | true =>
        have himg := h (i, p) (List.mem_cons_self _ _) hskip hsi
        cases himgv : images i with
        | none => exact absurd himgv himg
        | some u =>
          have hstep : visStep cfg images corners st i p (samples i) =
              Except.ok
                { skipped := st.skipped
                  drawn := st.drawn ++ [drawCamera cfg i p (some (corners i))]
                  min_pos := (corners i).foldl Vec3.minV st.min_pos
                  max_pos := (corners i).foldl Vec3.maxV st.max_pos } := by
            simp [visStep, hskip, hsi, himgv]
          simp only [runLoop, hstep]
          rw [ih _ (fun e he => h e (List.mem_cons_of_mem _ he))]
          simp [hskip, hsi, List.filter_cons, boundFold, renderEntry]
      | false =>
        have hstep : visStep cfg images corners st i p (samples i) =
            Except.ok
              { st with drawn := st.drawn ++ [drawCamera cfg i p none] } := by
          simp [visStep, hskip, hsi]
        simp only [runLoop, hstep]
        rw [ih _ (fun e he => h e (List.mem_cons_of_mem _ he))]
        simp [hskip, hsi, List.filter_cons, renderEntry]

theorem vis_spec (cfg : VisConfig) (images : ℕ → Option Unit)
    (corners : ℕ → List Vec3) (samples : ℕ → ℚ)
    (p : CameraPose) (ps : List CameraPose)
    (h : ∀ e ∈ (p :: ps).enum, skipCond cfg e.1 (samples e.1) = false →
      cfg.show_image = true → images e.1 ≠ none) :
    vis cfg images corners (p :: ps) samples =
      Except.ok
        { skipped := (((p :: ps).enum).filter
              (fun e => skipCond cfg e.1 (samples e.1))).map Prod.fst
          drawn := (((p :: ps).enum).filter
              (fun e => ! skipCond cfg e.1 (samples e.1))).map (renderEntry cfg corners)
          min_pos :=
            (if cfg.show_image then
              boundFold Vec3.minV corners
                ((((p :: ps).enum).filter
                  (fun e => ! skipCond cfg e.1 (samples e.1))).map Prod.fst)
                (seedMin p ps)
            else seedMin p ps)
          max_pos :=
            (if cfg.show_image then
              boundFold Vec3.maxV corners
                ((((p :: ps).enum).filter
                  (fun e => ! skipCond cfg e.1 (samples e.1))).map Prod.fst)
                (seedMax p ps)
            else seedMax p ps)
          xlim :=
            ((if cfg.show_image then
                boundFold Vec3.minV corners
                  ((((p :: ps).enum).filter
                    (fun e => ! skipCond cfg e.1 (samples e.1))).map Prod.fst)
                  (seedMin p ps)
              else seedMin p ps).compMin * (9 / 10),
             (if cfg.show_image then
                boundFold Vec3.maxV corners
                  ((((p :: ps).enum).filter
                    (fun e => ! skipCond cfg e.1 (samples e.1))).map Prod.fst)
                  (seedMax p ps)
              else seedMax p ps).compMax * (11 / 10))
          ylim :=
            ((if cfg.show_image then
                boundFold Vec3.minV corners
                  ((((p :: ps).enum).filter
                    (fun e => ! skipCond cfg e.1 (samples e.1))).map Prod.fst)
                  (seedMin p ps)
              else seedMin p ps).compMin * (9 / 10),
             (if cfg.show_image then
                boundFold Vec3.maxV corners
                  ((((p :: ps).enum).filter
                    (fun e => ! skipCond cfg e.1 (samples e.1))).map Prod.fst)
                  (seedMax p ps)
              else seedMax p ps).compMax * (11 / 10))
          zlim :=
            ((if cfg.show_image then
                boundFold Vec3.minV corners
                  ((((p :: ps).enum).filter
                    (fun e => ! skipCond cfg e.1 (samples e.1))).map Prod.fst)
                  (seedMin p ps)
              else seedMin p ps).compMin * (9 / 10),
             (if cfg.show_image then
                boundFold Vec3.maxV corners
                  ((((p :: ps).enum).filter
                    (fun e => ! skipCond cfg e.1 (samples e.1))).map Prod.fst)
                  (seedMax p ps)
              else seedMax p ps).compMax * (11 / 10))
          world_axis_end :=
            (if cfg.show_image then
              boundFold Vec3.maxV corners
                ((((p :: ps).enum).filter
                  (fun e => ! skipCond cfg e.1 (samples e.1))).map Prod.fst)
                (seedMax p ps)
            else seedMax p ps).compMax * (11 / 10)
          logged_skipped_count := ((((p :: ps).enum).filter
              (fun e => skipCond cfg e.1 (samples e.1))).map Prod.fst).length } := by
  simp only [vis]
  rw [runLoop_spec cfg images corners samples _ _ h]
  simp

theorem vis_ok_elim (cfg : VisConfig) (images : ℕ → Option Unit)
    (corners : ℕ → List Vec3) (poses : List CameraPose) (samples : ℕ → ℚ)
    (out : VisOutput)
    (hok : vis cfg images corners poses samples = Except.ok out) :
    ∃ p ps st, poses = p :: ps ∧
      runLoop cfg images corners samples ((p :: ps).enum)
        ⟨[], [], seedMin p ps, seedMax p ps⟩ = Except.ok st ∧
      out.skipped = st.skipped ∧ out.drawn = st.drawn ∧
      out.min_pos = st.min_pos ∧ out.max_pos = st.max_pos ∧
      out.xlim = (st.min_pos.compMin * (9 / 10), st.max_pos.compMax * (11 / 10)) ∧
      out.ylim = out.xlim ∧ out.zlim = out.xlim ∧
      out.world_axis_end = st.max_pos.compMax * (11 / 10) ∧
      out.logged_skipped_count = st.skipped.length := by
  cases poses with
  | nil => simp [vis] at hok
  | cons p ps =>
    simp only [vis] at hok
    cases hrun : runLoop cfg images corners samples ((p :: ps).enum)
        ⟨[], [], seedMin p ps, seedMax p ps⟩ with
    | error e => rw [hrun] at hok; simp at hok
    | ok st =>
      rw [hrun] at hok
      simp only [Except.ok.injEq] at hok
      subst hok
      exact ⟨p, ps, st, rfl, hrun, rfl, rfl, rfl, rfl, rfl, rfl, rfl, rfl, rfl⟩

theorem runLoop_drawn_mem (cfg : VisConfig) (images : ℕ → Option Unit)
    (corners : ℕ → List Vec3) (samples : ℕ → ℚ)
    (l : List (ℕ × CameraPose)) (st st' : LoopState)
    (hrun : runLoop cfg images corners samples l st = Except.ok st') :
    ∀ d ∈ st'.drawn, d ∈ st.drawn ∨ ∃ e ∈ l, d = renderEntry cfg corners e := by
  induction l generalizing st with
  | nil =>
    simp only [runLoop, Except.ok.injEq] at hrun
    subst hrun
    intro d hd
    exact Or.inl hd
  | cons e rest ih =>
    obtain ⟨i, p⟩ := e
    cases hskip : skipCond cfg i (samples i) with
    | true =>
      have hstep : visStep cfg images corners st i p (samples i) =
          Except.ok { st with skipped := st.skipped ++ [i] } := by
        simp [visStep, hskip]
      simp only [runLoop, hstep] at hrun
      intro d hd
      rcases ih _ hrun d hd with hmem | ⟨e, he, hde⟩
      · exact Or.inl hmem
      · exact Or.inr ⟨e, List.mem_cons_of_mem _ he, hde⟩
    | false =>
      cases hsi : cfg.show_image with
      | true =>
        cases himgv : images i with
        | none =>
          have : runLoop cfg images corners samples ((i, p) :: rest) st =
              Except.error "missing image file" := by
            simp [runLoop, visStep, hskip, hsi, himgv]
          rw [this] at hrun
          cases hrun
        | some u =>
          have hstep : visStep cfg images corners st i p (samples i) =
              Except.ok
                { skipped := st.skipped
                  drawn := st.drawn ++ [drawCamera cfg i p (some (corners i))]
                  min_pos := (corners i).foldl Vec3.minV st.min_pos
                  max_pos := (corners i).foldl Vec3.maxV st.max_pos } := by
            simp [visStep, hskip, hsi, himgv]
          simp only [runLoop, hstep] at hrun
          intro d hd
          rcases ih _ hrun d hd with hmem | ⟨e, he, hde⟩
          · rcases List.mem_append.mp hmem with hmem | hmem
            · exact Or.inl hmem
            · refine Or.inr ⟨(i, p), List.mem_cons_self _ _, ?_⟩
              rw [List.mem_singleton.mp hmem]
              simp [renderEntry, hsi]
          · exact Or.inr ⟨e, List.mem_cons_of_mem _ he, hde⟩
      | false =>
        have hstep : visStep cfg images corners st i p (samples i) =
            Except.ok
              { st with drawn := st.drawn ++ [drawCamera cfg i p none] } := by
          simp [visStep, hskip, hsi]
        simp only [runLoop, hstep] at hrun
        intro d hd
        rcases ih _ hrun d hd with hmem | ⟨e, he, hde⟩
        · rcases List.mem_append.mp hmem with hmem | hmem
          · exact Or.inl hmem
          · refine Or.inr ⟨(i, p), List.mem_cons_self _ _, ?_⟩
            rw [List.mem_singleton.mp hmem]
            simp [renderEntry, hsi]
        · exact Or.inr ⟨e, List.mem_cons_of_mem _ he, hde⟩

/-! ### Strided slicing -/

theorem strideSlice_length {α : Type} (k : ℕ) (hk : 1 ≤ k) :
    ∀ l : List α, (strideSlice k l).length = (l.length + k - 1) / k := by
  suffices main : ∀ (n : ℕ) (l : List α), l.length = n →
      (strideSlice k l).length = (l.length + k - 1) / k by
    intro l
    exact main l.length l rfl
  intro n
  induction n using Nat.strong_induction_on with
  | _ n ih =>
    intro l hn
    cases l with
    | nil =>
      simp only [strideSlice, List.length_nil, Nat.zero_add]
      rw [Nat.div_eq_of_lt (by omega)]
    | cons a rest =>
      simp only [List.length_cons] at hn
      rw [strideSlice, List.length_cons,
        ih ((rest.drop (k - 1)).length) (by rw [List.length_drop]; omega) _ rfl,
        List.length_drop]
      rcases le_or_lt (k - 1) rest.length with hge | hlt
      · rw [Nat.add_sub_assoc hk, Nat.sub_add_cancel hge, List.length_cons]
        have : rest.length + 1 + k - 1 = rest.length + k := by omega
        rw [this, Nat.add_div_right _ (by omega)]
      · have h0 : rest.length - (k - 1) = 0 := Nat.sub_eq_zero_of_le hlt.le
        rw [h0, Nat.zero_add, Nat.div_eq_of_lt (by omega), List.length_cons]
        have h1 : rest.length + 1 + k - 1 = rest.length + k := by omega
        rw [h1, Nat.add_div_right _ (by omega), Nat.div_eq_of_lt (by omega)]

theorem strideSlice_subset {α : Type} (k : ℕ) :
    ∀ (l : List α), ∀ a ∈ strideSlice k l, a ∈ l := by
  suffices main : ∀ (n : ℕ) (l : List α), l.length = n →
      ∀ a ∈ strideSlice k l, a ∈ l by
    intro l
    exact main l.length l rfl
  intro n
  induction n using Nat.strong_induction_on with
  | _ n ih =>
    intro l hn
    cases l with
    | nil => intro a ha; simp [strideSlice] at ha
    | cons b rest =>
      intro a ha
      rw [strideSlice] at ha
      rcases List.mem_cons.mp ha with rfl | ha
      · exact List.mem_cons_self _ _
      · have := ih ((rest.drop (k - 1)).length)
          (by rw [List.length_drop]; simp only [List.length_cons] at hn; omega) _ rfl a ha
        exact List.mem_cons_of_mem _ (List.drop_subset _ _ this)

/-! ### The claims -/

/-- C1: the loop skips camera `i` — appending `i` to the skipped list
and drawing nothing for it — if and only if the random sample for `i`
is strictly below `skip_probability`, or `selected_frames` is set,
`i` is not in it, and `show_image` is true; `show_image` gates only
the selected-frames disjunct, never the probability one. -/
theorem claim_C1_skip_iff (cfg : VisConfig) (images : ℕ → Option Unit)
    (corners : ℕ → List Vec3) (st : LoopState) (i : ℕ) (p : CameraPose)
    (s : ℚ) :
    (skipCond cfg i s = true ↔
      (s < cfg.skip_probability ∨
        ∃ sel, cfg.selected_frames = some sel ∧ i ∉ sel ∧
          cfg.show_image = true)) ∧
    (skipCond cfg i s = true →
      visStep cfg images corners st i p s =
        Except.ok { st with skipped := st.skipped ++ [i] }) ∧
    (skipCond cfg i s = false →
      ∀ st', visStep cfg images corners st i p s = Except.ok st' →
        st'.skipped = st.skipped ∧
        st'.drawn = st.drawn ++ [renderEntry cfg corners (i, p)]) := by
  refine ⟨skipCond_iff cfg i s, ?_, ?_⟩
  · intro hskip
    simp [visStep, hskip]
  · intro hskip st' hstep
    cases hsi : cfg.show_image with
    | true =>
      cases himgv : images i with
      | none => simp [visStep, hskip, hsi, himgv] at hstep
      | some u =>
        simp only [visStep, hskip, hsi, himgv, Bool.false_eq_true, if_false,
          if_true, Except.ok.injEq] at hstep
        subst hstep
        simp [renderEntry, hsi]
    | false =>
      simp only [visStep, hskip, hsi, Bool.false_eq_true, if_false,
        Except.ok.injEq] at hstep
      subst hstep
      simp [renderEntry, hsi]

/-- C2: with `show_image` false and `skip_probability` zero, no camera
is skipped even when `selected_frames` is set: frame selection has no
effect while `show_image` is false. -/
theorem claim_C2_no_skip_without_show (cfg : VisConfig)
    (images : ℕ → Option Unit) (corners : ℕ → List Vec3)
    (poses : List CameraPose) (samples : ℕ → ℚ)
    (hsi : cfg.show_image = false) (hp : cfg.skip_probability = 0)
    (hs : ∀ i, 0 ≤ samples i) (hne : poses ≠ []) :
    ∃ out, vis cfg images corners poses samples = Except.ok out ∧
      out.skipped = [] ∧ out.logged_skipped_count = 0 := by
  have hsk : ∀ i, skipCond cfg i (samples i) = false := by
    intro i
    cases hv : skipCond cfg i (samples i) with
    | false => rfl
    | true =>
      rcases (skipCond_iff cfg i (samples i)).mp hv with hlt | ⟨sel, _, _, hsi2⟩
      · rw [hp] at hlt
        exact absurd hlt (not_lt.mpr (hs i))
      · rw [hsi] at hsi2
        exact absurd hsi2 (by simp)
  cases poses with
  | nil => exact absurd rfl hne
  | cons p ps =>
    rw [vis_spec cfg images corners samples p ps
      (fun e _ _ h2 => by rw [hsi] at h2; exact absurd h2 (by simp))]
    have hnil : (p :: ps).enum.filter (fun e => skipCond cfg e.1 (samples e.1)) = [] :=
      List.filter_eq_nil_iff.mpr (fun e _ => by simp [hsk e.1])
    exact ⟨_, rfl, by simp [hnil], by simp [hnil]⟩

/-- C3: with `skip_probability = 1` and no frame selection, every one
of the N cameras is skipped (each sample lies in `[0,1)` hence below
1), nothing is drawn, and the logged skipped count is N. -/
theorem claim_C3_all_skipped (cfg : VisConfig) (images : ℕ → Option Unit)
    (corners : ℕ → List Vec3) (poses : List CameraPose) (samples : ℕ → ℚ)
    (hp : cfg.skip_probability = 1) (hsel : cfg.selected_frames = none)
    (hs : ∀ i, 0 ≤ samples i ∧ samples i < 1) (hne : poses ≠ []) :
    ∃ out, vis cfg images corners poses samples = Except.ok out ∧
      out.skipped = List.range poses.length ∧
      out.logged_skipped_count = poses.length ∧
      out.drawn = [] := by
  have hsk : ∀ i, skipCond cfg i (samples i) = true := fun i =>
    (skipCond_iff cfg i (samples i)).mpr (Or.inl (by rw [hp]; exact (hs i).2))
  cases poses with
  | nil => exact absurd rfl hne
  | cons p ps =>
    rw [vis_spec cfg images corners samples p ps
      (fun e _ h1 _ => by rw [hsk e.1] at h1; exact Bool.noConfusion h1)]
    have hfilter : (p :: ps).enum.filter (fun e => skipCond cfg e.1 (samples e.1)) =
        (p :: ps).enum :=
      List.filter_eq_self.mpr (fun e _ => hsk e.1)
    have hfilter2 : (p :: ps).enum.filter (fun e => ! skipCond cfg e.1 (samples e.1)) = [] :=
      List.filter_eq_nil_iff.mpr (fun e _ => by simp [hsk e.1])
    refine ⟨_, rfl, ?_, ?_, ?_⟩
    · simp [hfilter, List.enum_map_fst]
    · simp [hfilter, List.enum_map_fst]
    · simp [hfilter2]

/-- C4: with `selected_frames = {2,5}`, `show_image` true and
`skip_probability = 0`, exactly the cameras with indices 2 and 5 are
rendered; every other index is skipped deterministically, whatever the
random samples are. -/
theorem claim_C4_selected_only (cfg : VisConfig) (images : ℕ → Option Unit)
    (corners : ℕ → List Vec3) (poses : List CameraPose) (samples : ℕ → ℚ)
    (hp : cfg.skip_probability = 0) (hsel : cfg.selected_frames = some [2, 5])
    (hsi : cfg.show_image = true) (hs : ∀ i, 0 ≤ samples i)
    (him : ∀ i, images i ≠ none) (hne : poses ≠ []) :
    ∃ out, vis cfg images corners poses samples = Except.ok out ∧
      out.drawn.map DrawnCamera.index =
        (List.range poses.length).filter (fun i => decide (i ∈ ([2, 5] : List ℕ))) ∧
      out.skipped =
        (List.range poses.length).filter (fun i => ! decide (i ∈ ([2, 5] : List ℕ))) ∧
      (∀ j, j ∈ out.drawn.map DrawnCamera.index ↔
        (j < poses.length ∧ (j = 2 ∨ j = 5))) ∧
      (∀ j, j ∈ out.skipped ↔ (j < poses.length ∧ ¬(j = 2 ∨ j = 5))) := by
  have hsk : ∀ i, skipCond cfg i (samples i) = ! decide (i ∈ ([2, 5] : List ℕ)) := by
    intro i
    by_cases hmem : i ∈ ([2, 5] : List ℕ)
    · simp only [hmem, decide_True, Bool.not_true]
      cases hv : skipCond cfg i (samples i) with
      | false => rfl
      | true =>
        rcases (skipCond_iff cfg i (samples i)).mp hv with hlt | ⟨sel, hsel2, hnotin, _⟩
        · rw [hp] at hlt
          exact absurd hlt (not_lt.mpr (hs i))
        · rw [hsel] at hsel2
          injection hsel2 with hsel3
          exact absurd (hsel3 ▸ hmem) hnotin
    · simp only [hmem, decide_False, Bool.not_false]
      exact (skipCond_iff cfg i (samples i)).mpr (Or.inr ⟨[2, 5], hsel, hmem, hsi⟩)
  cases poses with
  | nil => exact absurd rfl hne
  | cons p ps =>
    rw [vis_spec cfg images corners samples p ps (fun e _ _ _ => him e.1)]
    have hindex : (DrawnCamera.index ∘ renderEntry cfg corners) = Prod.fst := by
      funext e
      rfl
    have hdrawn :
        (((p :: ps).enum.filter (fun e => ! skipCond cfg e.1 (samples e.1))).map
            (renderEntry cfg corners)).map DrawnCamera.index =
          (List.range (p :: ps).length).filter
            (fun i => decide (i ∈ ([2, 5] : List ℕ))) := by
      rw [List.map_map, hindex]
      have hcongr : (p :: ps).enum.filter (fun e => ! skipCond cfg e.1 (samples e.1)) =
          (p :: ps).enum.filter
            ((fun i => decide (i ∈ ([2, 5] : List ℕ))) ∘ Prod.fst) := by
        apply List.filter_congr
        intro e _
        simp [hsk e.1, Function.comp]
      rw [hcongr, ← List.filter_map, List.enum_map_fst]
    have hskipped :
        ((p :: ps).enum.filter (fun e => skipCond cfg e.1 (samples e.1))).map Prod.fst =
          (List.range (p :: ps).length).filter
            (fun i => ! decide (i ∈ ([2, 5] : List ℕ))) := by
      have hcongr : (p :: ps).enum.filter (fun e => skipCond cfg e.1 (samples e.1)) =
          (p :: ps).enum.filter
            ((fun i => ! decide (i ∈ ([2, 5] : List ℕ))) ∘ Prod.fst) := by
        apply List.filter_congr
        intro e _
        simp [hsk e.1, Function.comp]
      rw [hcongr, ← List.filter_map, List.enum_map_fst]
    refine ⟨_, rfl, hdrawn, hskipped, ?_, ?_⟩
    · intro j
      rw [hdrawn]
      simp [List.mem_filter, List.mem_range]
    · intro j
      rw [hskipped]
      simp [List.mem_filter, List.mem_range]

/-- C5: every drawn camera's axis endpoints are its position plus
`0.8 * image_plane` times the corresponding rotation column; for the
identity rotation and `image_plane = 1` they are the position shifted
by `(0.8, 0, 0)`, `(0, 0.8, 0)`, `(0, 0, 0.8)`. -/
theorem claim_C5_axis_endpoints (cfg : VisConfig) (images : ℕ → Option Unit)
    (corners : ℕ → List Vec3) (poses : List CameraPose) (samples : ℕ → ℚ)
    (out : VisOutput)
    (hok : vis cfg images corners poses samples = Except.ok out) :
    ∀ d ∈ out.drawn, ∃ p ∈ poses,
      d.camera_position = p.translation ∧
      d.x_axis = Vec3.addV p.translation
        (Vec3.smul ((4 / 5) * cfg.image_plane) p.rotation.col0) ∧
      d.y_axis = Vec3.addV p.translation
        (Vec3.smul ((4 / 5) * cfg.image_plane) p.rotation.col1) ∧
      d.z_axis = Vec3.addV p.translation
        (Vec3.smul ((4 / 5) * cfg.image_plane) p.rotation.col2) ∧
      (p.rotation = idMat → cfg.image_plane = 1 →
        d.x_axis = Vec3.addV p.translation ⟨4 / 5, 0, 0⟩ ∧
        d.y_axis = Vec3.addV p.translation ⟨0, 4 / 5, 0⟩ ∧
        d.z_axis = Vec3.addV p.translation ⟨0, 0, 4 / 5⟩) := by
  intro d hd
  obtain ⟨p, ps, st, rfl, hrun, hskipped, hdrawn, hrest⟩ :=
    vis_ok_elim cfg images corners poses samples out hok
  rw [hdrawn] at hd
  rcases runLoop_drawn_mem cfg images corners samples _ _ _ hrun d hd with
    hmem | ⟨e, he, rfl⟩
  · simp at hmem
  · have hin : e.2 ∈ p :: ps := by
      have hget := List.mem_enum_iff_get?.mp he
      exact List.get?_mem hget
    refine ⟨e.2, hin, rfl, rfl, rfl, rfl, ?_⟩
    intro hrot hplane
    refine ⟨?_, ?_, ?_⟩ <;>
      norm_num [renderEntry, drawCamera, hrot, hplane, idMat, Vec3.smul]

/-- C6: after the loop the X, Y and Z axis limits are all the same
interval `[0.9 * m, 1.1 * M]`, where `m` and `M` are the scalar
minimum and maximum over the components of the final bound vectors,
and the world-axis reference lines end at `1.1 * M`. -/
theorem claim_C6_cubic_limits (cfg : VisConfig) (images : ℕ → Option Unit)
    (corners : ℕ → List Vec3) (poses : List CameraPose) (samples : ℕ → ℚ)
    (out : VisOutput)
    (hok : vis cfg images corners poses samples = Except.ok out) :
    out.xlim = (out.min_pos.compMin * (9 / 10), out.max_pos.compMax * (11 / 10)) ∧
    out.ylim = out.xlim ∧ out.zlim = out.xlim ∧
    out.world_axis_end = out.max_pos.compMax * (11 / 10) := by
  obtain ⟨p, ps, st, rfl, hrun, hsk, hdr, hmin, hmax, hx, hy, hz, hw, hc⟩ :=
    vis_ok_elim cfg images corners poses samples out hok
  refine ⟨?_, hy, hz, ?_⟩
  · rw [hmin, hmax]
    exact hx
  · rw [hmax]
    exact hw

/-- C8: no failure is handled: an empty camera set fails at the
initial bound reduction, and a missing image file for a rendered
camera fails the run; both abort with an error instead of a shown
figure. -/
theorem claim_C8_failures (cfg : VisConfig) (images : ℕ → Option Unit)
    (corners : ℕ → List Vec3) (samples : ℕ → ℚ) (p : CameraPose)
    (ps : List CameraPose) :
    (∃ e, vis cfg images corners [] samples = Except.error e) ∧
    (cfg.show_image = true → skipCond cfg 0 (samples 0) = false →
      images 0 = none →
      ∃ e, vis cfg images corners (p :: ps) samples = Except.error e) := by
  constructor
  · exact ⟨_, rfl⟩
  · intro hsi hskip himg
    refine ⟨"missing image file", ?_⟩
    simp only [vis, List.enum_cons]
    simp [runLoop, visStep, hskip, hsi, himg]

theorem visStep_mono (cfg : VisConfig) (images : ℕ → Option Unit)
    (corners : ℕ → List Vec3) (st : LoopState) (i : ℕ) (p : CameraPose)
    (s : ℚ) (st' : LoopState)
    (hstep : visStep cfg images corners st i p s = Except.ok st') :
    Vec3.le st'.min_pos st.min_pos ∧ Vec3.le st.max_pos st'.max_pos := by
  cases hskip : skipCond cfg i s with
  | true =>
    simp only [visStep, hskip, if_true, Except.ok.injEq] at hstep
    subst hstep
    exact ⟨Vec3.le_refl _, Vec3.le_refl _⟩
  | false =>
    cases hsi : cfg.show_image with
    | true =>
      cases himgv : images i with
      | none => simp [visStep, hskip, hsi, himgv] at hstep
      | some u =>
        simp only [visStep, hskip, hsi, himgv, Bool.false_eq_true, if_false,
          if_true, Except.ok.injEq] at hstep
        subst hstep
        exact ⟨foldl_minV_le _ _, le_foldl_maxV _ _⟩
    | false =>
      simp only [visStep, hskip, hsi, Bool.false_eq_true, if_false,
        Except.ok.injEq] at hstep
      subst hstep
      exact ⟨Vec3.le_refl _, Vec3.le_refl _⟩

/-- C7: for `image_downsample_factor = k ≥ 1`, strided subsampling of
a list keeps `ceil(n / k)` of its `n` elements — witnessed by the
formula `(n + k - 1) / k` together with the two inequalities pinning
it as the ceiling — and on a rectangular grid it keeps
`ceil(rows / k)` rows of `ceil(cols / k)` entries each. -/
theorem claim_C7_downsample_counts {α : Type} (k : ℕ) (hk : 1 ≤ k)
    (l : List α) (g : List (List α)) (c : ℕ) (hg : ∀ r ∈ g, r.length = c) :
    (strideSlice k l).length = (l.length + k - 1) / k ∧
    l.length ≤ k * ((l.length + k - 1) / k) ∧
    k * ((l.length + k - 1) / k) < l.length + k ∧
    (strideGrid k g).length = (g.length + k - 1) / k ∧
    (∀ r ∈ strideGrid k g, r.length = (c + k - 1) / k) := by
  refine ⟨strideSlice_length k hk l, ?_, ?_, ?_, ?_⟩
  · have h2 := Nat.lt_mul_div_succ (l.length + k - 1) (show 0 < k by omega)
    rw [Nat.mul_add, Nat.mul_one] at h2
    omega
  · have h1 := Nat.div_mul_le_self (l.length + k - 1) k
    rw [Nat.mul_comm] at h1
    omega
  · rw [strideGrid, List.length_map]
    exact strideSlice_length k hk g
  · intro r hr
    rw [strideGrid] at hr
    rcases List.mem_map.mp hr with ⟨r0, hr0, rfl⟩
    rw [strideSlice_length k hk r0, hg r0 (strideSlice_subset k g r0 hr0)]

/-- C9: the bound vectors are seeded before the loop from the
translations of all poses, independently of skipping, and are then
expanded only by the frustum corners of cameras that are neither
skipped nor drawn without `show_image`. -/
theorem claim_C9_bound_provenance (cfg : VisConfig)
    (images : ℕ → Option Unit) (corners : ℕ → List Vec3)
    (p : CameraPose) (ps : List CameraPose) (samples : ℕ → ℚ)
    (him : ∀ i, images i ≠ none) :
    ∃ out, vis cfg images corners (p :: ps) samples = Except.ok out ∧
      out.min_pos = (if cfg.show_image then
          boundFold Vec3.minV corners
            (((p :: ps).enum.filter
              (fun e => ! skipCond cfg e.1 (samples e.1))).map Prod.fst)
            (seedMin p ps)
        else seedMin p ps) ∧
      out.max_pos = (if cfg.show_image then
          boundFold Vec3.maxV corners
            (((p :: ps).enum.filter
              (fun e => ! skipCond cfg e.1 (samples e.1))).map Prod.fst)
            (seedMax p ps)
        else seedMax p ps) := by
  rw [vis_spec cfg images corners samples p ps (fun e _ _ _ => him e.1)]
  exact ⟨_, rfl, rfl, rfl⟩

/-- C10: across any stretch of the loop the bound vectors evolve
monotonically — `min_pos` never increases and `max_pos` never
decreases componentwise, so every vector they bracket stays
bracketed — and the seeds bracket the translation of every camera
pose, so the invariant `min_pos ≤ translation ≤ max_pos` holds at
every point of the loop. -/
theorem claim_C10_bound_invariant (cfg : VisConfig)
    (images : ℕ → Option Unit) (corners : ℕ → List Vec3)
    (samples : ℕ → ℚ) :
    (∀ (l : List (ℕ × CameraPose)) (st st' : LoopState),
      runLoop cfg images corners samples l st = Except.ok st' →
        (Vec3.le st'.min_pos st.min_pos ∧ Vec3.le st.max_pos st'.max_pos) ∧
        (∀ v, Vec3.le st.min_pos v → Vec3.le v st.max_pos →
          Vec3.le st'.min_pos v ∧ Vec3.le v st'.max_pos)) ∧
    (∀ (p : CameraPose) (ps : List CameraPose), ∀ q ∈ p :: ps,
      Vec3.le (seedMin p ps) q.translation ∧
      Vec3.le q.translation (seedMax p ps)) := by
  constructor
  · intro l
    induction l with
    | nil =>
      intro st st' hrun
      simp only [runLoop, Except.ok.injEq] at hrun
      subst hrun
      exact ⟨⟨Vec3.le_refl _, Vec3.le_refl _⟩, fun v h1 h2 => ⟨h1, h2⟩⟩
    | cons e rest ih =>
      intro st st' hrun
      obtain ⟨i, p⟩ := e
      cases hstepv : visStep cfg images corners st i p (samples i) with
      | error e2 =>
        simp only [runLoop, hstepv] at hrun
        exact Except.noConfusion hrun
      | ok st2 =>
        simp only [runLoop, hstepv] at hrun
        have hmono := visStep_mono cfg images corners st i p (samples i) st2 hstepv
        have hrest := ih st2 st' hrun
        have hmin : Vec3.le st'.min_pos st.min_pos :=
          Vec3.le_trans hrest.1.1 hmono.1
        have hmax : Vec3.le st.max_pos st'.max_pos :=
          Vec3.le_trans hmono.2 hrest.1.2
        exact ⟨⟨hmin, hmax⟩,
          fun v h1 h2 => ⟨Vec3.le_trans hmin h1, Vec3.le_trans h2 hmax⟩⟩
  · intro p ps q hq
    have hseedmin : seedMin p ps =
        (ps.map CameraPose.translation).foldl Vec3.minV p.translation := by
      rw [seedMin, List.foldl_map]
    have hseedmax : seedMax p ps =
        (ps.map CameraPose.translation).foldl Vec3.maxV p.translation := by
      rw [seedMax, List.foldl_map]
    rcases List.mem_cons.mp hq with rfl | hq
    · rw [hseedmin, hseedmax]
      exact ⟨foldl_minV_le _ _, le_foldl_maxV _ _⟩
    · rw [hseedmin, hseedmax]
      exact ⟨foldl_minV_le_mem _ _ _ (List.mem_map_of_mem _ hq),
        le_foldl_maxV_mem _ _ _ (List.mem_map_of_mem _ hq)⟩

/-! ### Concrete witnesses -/

theorem claim_C1_skip_iff_witness :
    visStep ⟨5, 1, 1, none, false⟩ (fun _ => some ()) (fun _ => [])
      ⟨[], [], ⟨0, 0, 0⟩, ⟨0, 0, 0⟩⟩ 0 ⟨idMat, ⟨0, 0, 0⟩⟩ (1 / 2) =
      Except.ok ⟨[0], [], ⟨0, 0, 0⟩, ⟨0, 0, 0⟩⟩ := by
  have h := (claim_C1_skip_iff ⟨5, 1, 1, none, false⟩ (fun _ => some ())
    (fun _ => []) ⟨[], [], ⟨0, 0, 0⟩, ⟨0, 0, 0⟩⟩ 0 ⟨idMat, ⟨0, 0, 0⟩⟩
    (1 / 2)).2.1 (by norm_num [skipCond])
  simpa using h

theorem claim_C2_no_skip_without_show_witness :
    ∃ out, vis ⟨5, 0, 1, some [2, 5], false⟩ (fun _ => some ()) (fun _ => [])
        [⟨idMat, ⟨0, 0, 0⟩⟩] (fun _ => 1 / 2) = Except.ok out ∧
      out.skipped = [] ∧ out.logged_skipped_count = 0 :=
  claim_C2_no_skip_without_show ⟨5, 0, 1, some [2, 5], false⟩
    (fun _ => some ()) (fun _ => []) [⟨idMat, ⟨0, 0, 0⟩⟩] (fun _ => 1 / 2)
    rfl rfl (fun i => by norm_num) (by simp)

theorem claim_C3_all_skipped_witness :
    ∃ out, vis ⟨5, 1, 1, none, false⟩ (fun _ => some ()) (fun _ => [])
        [⟨idMat, ⟨0, 0, 0⟩⟩, ⟨idMat, ⟨1, 0, 0⟩⟩] (fun _ => 1 / 2) =
        Except.ok out ∧
      out.skipped = List.range ([⟨idMat, ⟨0, 0, 0⟩⟩,
        ⟨idMat, ⟨1, 0, 0⟩⟩] : List CameraPose).length ∧
      out.logged_skipped_count = ([⟨idMat, ⟨0, 0, 0⟩⟩,
        ⟨idMat, ⟨1, 0, 0⟩⟩] : List CameraPose).length ∧
      out.drawn = [] :=
  claim_C3_all_skipped ⟨5, 1, 1, none, false⟩ (fun _ => some ()) (fun _ => [])
    [⟨idMat, ⟨0, 0, 0⟩⟩, ⟨idMat, ⟨1, 0, 0⟩⟩] (fun _ => 1 / 2)
    rfl rfl (fun i => by norm_num) (by simp)

theorem claim_C4_selected_only_witness :
    ∃ out, vis ⟨5, 0, 1, some [2, 5], true⟩ (fun _ => some ()) (fun _ => [])
        [⟨idMat, ⟨0, 0, 0⟩⟩, ⟨idMat, ⟨1, 0, 0⟩⟩, ⟨idMat, ⟨2, 0, 0⟩⟩]
        (fun _ => 1 / 2) = Except.ok out ∧
      out.drawn.map DrawnCamera.index =
        (List.range ([⟨idMat, ⟨0, 0, 0⟩⟩, ⟨idMat, ⟨1, 0, 0⟩⟩,
          ⟨idMat, ⟨2, 0, 0⟩⟩] : List CameraPose).length).filter
          (fun i => decide (i ∈ ([2, 5] : List ℕ))) ∧
      out.skipped =
        (List.range ([⟨idMat, ⟨0, 0, 0⟩⟩, ⟨idMat, ⟨1, 0, 0⟩⟩,
          ⟨idMat, ⟨2, 0, 0⟩⟩] : List CameraPose).length).filter
          (fun i => ! decide (i ∈ ([2, 5] : List ℕ))) ∧
      (∀ j, j ∈ out.drawn.map DrawnCamera.index ↔
        (j < ([⟨idMat, ⟨0, 0, 0⟩⟩, ⟨idMat, ⟨1, 0, 0⟩⟩,
          ⟨idMat, ⟨2, 0, 0⟩⟩] : List CameraPose).length ∧ (j = 2 ∨ j = 5))) ∧
      (∀ j, j ∈ out.skipped ↔
        (j < ([⟨idMat, ⟨0, 0, 0⟩⟩, ⟨idMat, ⟨1, 0, 0⟩⟩,
          ⟨idMat, ⟨2, 0, 0⟩⟩] : List CameraPose).length ∧ ¬(j = 2 ∨ j = 5))) :=
  claim_C4_selected_only ⟨5, 0, 1, some [2, 5], true⟩ (fun _ => some ())
    (fun _ => []) [⟨idMat, ⟨0, 0, 0⟩⟩, ⟨idMat, ⟨1, 0, 0⟩⟩, ⟨idMat, ⟨2, 0, 0⟩⟩]
    (fun _ => 1 / 2) rfl rfl rfl (fun i => by norm_num) (fun i => by simp)
    (by simp)

theorem claim_C5_axis_endpoints_witness :
    ∃ p ∈ [(⟨idMat, ⟨1, 2, 3⟩⟩ : CameraPose)],
      (⟨0, ⟨1, 2, 3⟩, ⟨9 / 5, 2, 3⟩, ⟨1, 14 / 5, 3⟩, ⟨1, 2, 19 / 5⟩,
          none⟩ : DrawnCamera).camera_position = p.translation ∧
      (⟨0, ⟨1, 2, 3⟩, ⟨9 / 5, 2, 3⟩, ⟨1, 14 / 5, 3⟩, ⟨1, 2, 19 / 5⟩,
          none⟩ : DrawnCamera).x_axis = Vec3.addV p.translation
        (Vec3.smul ((4 / 5) *
          (⟨5, 0, 1, none, false⟩ : VisConfig).image_plane) p.rotation.col0) ∧
      (⟨0, ⟨1, 2, 3⟩, ⟨9 / 5, 2, 3⟩, ⟨1, 14 / 5, 3⟩, ⟨1, 2, 19 / 5⟩,
          none⟩ : DrawnCamera).y_axis = Vec3.addV p.translation
        (Vec3.smul ((4 / 5) *
          (⟨5, 0, 1, none, false⟩ : VisConfig).image_plane) p.rotation.col1) ∧
      (⟨0, ⟨1, 2, 3⟩, ⟨9 / 5, 2, 3⟩, ⟨1, 14 / 5, 3⟩, ⟨1, 2, 19 / 5⟩,
          none⟩ : DrawnCamera).z_axis = Vec3.addV p.translation
        (Vec3.smul ((4 / 5) *
          (⟨5, 0, 1, none, false⟩ : VisConfig).image_plane) p.rotation.col2) ∧
      (p.rotation = idMat →
        (⟨5, 0, 1, none, false⟩ : VisConfig).image_plane = 1 →
        (⟨0, ⟨1, 2, 3⟩, ⟨9 / 5, 2, 3⟩, ⟨1, 14 / 5, 3⟩, ⟨1, 2, 19 / 5⟩,
            none⟩ : DrawnCamera).x_axis = Vec3.addV p.translation ⟨4 / 5, 0, 0⟩ ∧
        (⟨0, ⟨1, 2, 3⟩, ⟨9 / 5, 2, 3⟩, ⟨1, 14 / 5, 3⟩, ⟨1, 2, 19 / 5⟩,
            none⟩ : DrawnCamera).y_axis = Vec3.addV p.translation ⟨0, 4 / 5, 0⟩ ∧
        (⟨0, ⟨1, 2, 3⟩, ⟨9 / 5, 2, 3⟩, ⟨1, 14 / 5, 3⟩, ⟨1, 2, 19 / 5⟩,
            none⟩ : DrawnCamera).z_axis = Vec3.addV p.translation ⟨0, 0, 4 / 5⟩) := by
  have hok : vis ⟨5, 0, 1, none, false⟩ (fun _ => some ()) (fun _ => [])
      [⟨idMat, ⟨1, 2, 3⟩⟩] (fun _ => 0) =
      Except.ok ⟨[], [⟨0, ⟨1, 2, 3⟩, ⟨9 / 5, 2, 3⟩, ⟨1, 14 / 5, 3⟩,
        ⟨1, 2, 19 / 5⟩, none⟩], ⟨1, 2, 3⟩, ⟨1, 2, 3⟩, (9 / 10, 33 / 10),
        (9 / 10, 33 / 10), (9 / 10, 33 / 10), 33 / 10, 0⟩ := by
    norm_num [vis, List.enum, List.enumFrom, runLoop, visStep, skipCond,
      seedMin, seedMax, drawCamera, Vec3.compMin, Vec3.compMax, Vec3.addV,
      Vec3.smul, idMat]
  exact claim_C5_axis_endpoints _ _ _ _ _ _ hok _ (List.mem_singleton_self _)

theorem claim_C6_cubic_limits_witness :
    ((9 : ℚ) / 10, (33 : ℚ) / 10) =
      (Vec3.compMin ⟨1, 2, 3⟩ * (9 / 10), Vec3.compMax ⟨1, 2, 3⟩ * (11 / 10)) ∧
    ((9 : ℚ) / 10, (33 : ℚ) / 10) = ((9 : ℚ) / 10, (33 : ℚ) / 10) ∧
    ((9 : ℚ) / 10, (33 : ℚ) / 10) = ((9 : ℚ) / 10, (33 : ℚ) / 10) ∧
    (33 : ℚ) / 10 = Vec3.compMax ⟨1, 2, 3⟩ * (11 / 10) := by
  have hok : vis ⟨5, 0, 1, none, false⟩ (fun _ => some ()) (fun _ => [])
      [⟨idMat, ⟨1, 2, 3⟩⟩] (fun _ => 0) =
      Except.ok ⟨[], [⟨0, ⟨1, 2, 3⟩, ⟨9 / 5, 2, 3⟩, ⟨1, 14 / 5, 3⟩,
        ⟨1, 2, 19 / 5⟩, none⟩], ⟨1, 2, 3⟩, ⟨1, 2, 3⟩, (9 / 10, 33 / 10),
        (9 / 10, 33 / 10), (9 / 10, 33 / 10), 33 / 10, 0⟩ := by
    norm_num [vis, List.enum, List.enumFrom, runLoop, visStep, skipCond,
      seedMin, seedMax, drawCamera, Vec3.compMin, Vec3.compMax, Vec3.addV,
      Vec3.smul, idMat]
  exact claim_C6_cubic_limits _ _ _ _ _ _ hok

theorem claim_C7_downsample_counts_witness :
    (strideSlice 5 (List.range 12)).length = ((List.range 12).length + 5 - 1) / 5 ∧
    (List.range 12).length ≤ 5 * (((List.range 12).length + 5 - 1) / 5) ∧
    5 * (((List.range 12).length + 5 - 1) / 5) < (List.range 12).length + 5 ∧
    (strideGrid 5 [List.range 7, List.range 7]).length =
      (([List.range 7, List.range 7] : List (List ℕ)).length + 5 - 1) / 5 ∧
    (∀ r ∈ strideGrid 5 [List.range 7, List.range 7],
      r.length = (7 + 5 - 1) / 5) :=
  claim_C7_downsample_counts 5 (by norm_num) (List.range 12)
    [List.range 7, List.range 7] 7 (by simp)

theorem claim_C8_failures_witness :
    (∃ e, vis ⟨5, 0, 1, none, true⟩ (fun _ => none) (fun _ => [])
      [] (fun _ => 0) = Except.error e) ∧
    (∃ e, vis ⟨5, 0, 1, none, true⟩ (fun _ => none) (fun _ => [])
      [⟨idMat, ⟨0, 0, 0⟩⟩] (fun _ => 0) = Except.error e) :=
  ⟨(claim_C8_failures ⟨5, 0, 1, none, true⟩ (fun _ => none) (fun _ => [])
      (fun _ => 0) ⟨idMat, ⟨0, 0, 0⟩⟩ []).1,
   (claim_C8_failures ⟨5, 0, 1, none, true⟩ (fun _ => none) (fun _ => [])
      (fun _ => 0) ⟨idMat, ⟨0, 0, 0⟩⟩ []).2 rfl (by norm_num [skipCond]) rfl⟩

theorem claim_C9_bound_provenance_witness :
    ∃ out, vis ⟨5, 0, 1, none, false⟩ (fun _ => some ()) (fun _ => [])
        [⟨idMat, ⟨0, 0, 0⟩⟩] (fun _ => 0) = Except.ok out ∧
      out.min_pos = (if (⟨5, 0, 1, none, false⟩ : VisConfig).show_image then
          boundFold Vec3.minV (fun _ => [])
            ((([⟨idMat, ⟨0, 0, 0⟩⟩] : List CameraPose).enum.filter
              (fun e => ! skipCond ⟨5, 0, 1, none, false⟩ e.1 0)).map Prod.fst)
            (seedMin ⟨idMat, ⟨0, 0, 0⟩⟩ [])
        else seedMin ⟨idMat, ⟨0, 0, 0⟩⟩ []) ∧
      out.max_pos = (if (⟨5, 0, 1, none, false⟩ : VisConfig).show_image then
          boundFold Vec3.maxV (fun _ => [])
            ((([⟨idMat, ⟨0, 0, 0⟩⟩] : List CameraPose).enum.filter
              (fun e => ! skipCond ⟨5, 0, 1, none, false⟩ e.1 0)).map Prod.fst)
            (seedMax ⟨idMat, ⟨0, 0, 0⟩⟩ [])
        else seedMax ⟨idMat, ⟨0, 0, 0⟩⟩ []) :=
  claim_C9_bound_provenance ⟨5, 0, 1, none, false⟩ (fun _ => some ())
    (fun _ => []) ⟨idMat, ⟨0, 0, 0⟩⟩ [] (fun _ => 0) (fun i => by simp)

theorem claim_C10_bound_invariant_witness :
    Vec3.le (seedMin ⟨idMat, ⟨0, 0, 0⟩⟩ [⟨idMat, ⟨1, 1, 1⟩⟩])
        (⟨idMat, ⟨1, 1, 1⟩⟩ : CameraPose).translation ∧
      Vec3.le (⟨idMat, ⟨1, 1, 1⟩⟩ : CameraPose).translation
        (seedMax ⟨idMat, ⟨0, 0, 0⟩⟩ [⟨idMat, ⟨1, 1, 1⟩⟩]) :=
  (claim_C10_bound_invariant ⟨5, 0, 1, none, false⟩ (fun _ => some ())
    (fun _ => []) (fun _ => 0)).2 ⟨idMat, ⟨0, 0, 0⟩⟩ [⟨idMat, ⟨1, 1, 1⟩⟩]
    ⟨idMat, ⟨1, 1, 1⟩⟩ (List.mem_cons_of_mem _ (List.mem_singleton_self _))
